import Mathlib

/-!
Verification of the steganographic container core of `src/image_encryption.py`
(class `ImageEncryption`).

The embedding models the in-memory pixel pipeline.  External collaborators
(PIL image codec, PBKDF2 key derivation, the Fernet authenticated cipher, the
process PRNG) are parameters of the embedded functions, constrained only by
the hypotheses the claims need; everything the repository itself computes
(header layout, byte-to-pixel packing, canvas growth, extraction, the
detection heuristic, exception wrapping) is translated directly from the
source.

Python integers are `Nat`.  Python float expressions `int(a / b + 0.5)`
(lines 146-147) are modelled by exact rational rounding `(2*a + b) / (2*b)`;
a zero divisor, which raises `ZeroDivisionError` in Python, is modelled as an
explicit error.  Python exceptions are modelled by the `PyExn` type: `base`
is a raised library exception (identified by a tag naming the Python
exception class), and `wrap pre e` models `raise Exception(pre + str(e))`,
the pattern used at lines 114-115, 240-241 and 288-289 of the source.
-/

/-- One RGB pixel: the (r, g, b) channel triple handled by `putdata`/`getdata`. -/
abbrev Rgb : Type := Nat × Nat × Nat

/-- An in-memory RGB image: dimensions plus the row-major pixel list, the shape
`Image.new('RGB', (width, height))` / `img.getdata()` exchange with the core. -/
structure RawImage where
  width : Nat
  height : Nat
  pixels : List Rgb
deriving DecidableEq

/-- Python exception values as observed by callers: a raised library exception
(`base tag`, tagged with the exception class name), or a re-raise
`Exception(pre + str(e))` wrapping an inner exception (`wrap pre e`). -/
inductive PyExn where
  | base (tag : String)
  | wrap (pre : String) (e : PyExn)
deriving DecidableEq

/-- Exact model of the Python expression `int((a / b) + 0.5)` for `b > 0`
(source lines 146-147): float division, add one half, truncate toward zero
(equal to floor here since the value is nonnegative). -/
def roundHalf (a b : Nat) : Nat := (2 * a + b) / (2 * b)

/-- The canvas growth loop of `_create_decoy_image_with_data`, lines 142-147:

    while new_width * new_height < needed_pixels:
        new_width = max(new_width + 1, int((needed_pixels / new_height) + 0.5))
        new_height = max(new_height + 1, int((needed_pixels / new_width) + 0.5))

`fuel` is a structural-recursion bound; every iteration strictly increases
`w * h`, so `needed + 1` units of fuel always suffice (`growDims_isOk`), and
the `OutOfFuel` branch is unreachable from `growDims`.  When `h = 0` the first
division raises `ZeroDivisionError`, faithfully to Python float division. -/
def growDimsFuel : Nat → Nat → Nat → Nat → Except PyExn (Nat × Nat)
  | 0, _, _, _ => .error (.base "OutOfFuel")
  | fuel + 1, needed, w, h =>
    if w * h < needed then
      if h = 0 then .error (.base "ZeroDivisionError")
      else
        growDimsFuel fuel needed (max (w + 1) (roundHalf needed h))
          (max (h + 1) (roundHalf needed (max (w + 1) (roundHalf needed h))))
    else .ok (w, h)

/-- Canvas growth entry point: the loop runs at most `needed` iterations
(the deficit `needed - w * h` strictly decreases), so fuel `needed + 1` is
exact.  If the capacity test `pixels_for_data + 2 > total_pixels` at line 139
fails, the dimensions are returned unchanged, as in the source. -/
def growDims (needed w h : Nat) : Except PyExn (Nat × Nat) :=
  growDimsFuel (needed + 1) needed w h

/-- The two length-header pixels, lines 154-165: `struct.pack('>I', n)` yields
the 4 big-endian bytes of `n`; pixel 0 carries bytes 0-2, pixel 1 carries
byte 3 padded with two zero channels. -/
def lengthHeaderPixels (n : Nat) : List Rgb :=
  [(n / 2 ^ 24 % 256, n / 2 ^ 16 % 256, n / 2 ^ 8 % 256), (n % 256, 0, 0)]

/-- The data-embedding loop, lines 167-177: bytes are packed three per pixel,
the final partial pixel zero-padded. -/
def bytesToPixels : List Nat → List Rgb
  | [] => []
  | [a] => [(a, 0, 0)]
  | [a, b] => [(a, b, 0)]
  | a :: b :: c :: rest => (a, b, c) :: bytesToPixels rest

/-- The filler loop, lines 179-182: `count` noise pixels drawn in order from
the (already seeded) process PRNG, abstracted as the stream `noise`. -/
def fillerPixels (noise : Nat → Rgb) (count : Nat) : List Rgb :=
  (List.range count).map noise

/-- `_create_decoy_image_with_data` (lines 117-186) up to the image object:
compute `pixels_for_data = (len + 2) // 3`, grow the canvas if
`pixels_for_data + 2 > total_pixels`, build header, data and filler pixels and
truncate to `total_pixels` (`pixels[:total_pixels]`, line 186).
`struct.pack('>I', n)` raises `struct.error` for `n >= 2^32` (line 155, after
the growth block). -/
def createDecoyPixels (noise : Nat → Rgb) (data : List Nat) (width height : Nat) :
    Except PyExn RawImage :=
  match growDims ((data.length + 2) / 3 + 2) width height with
  | .error e => .error e
  | .ok (w, h) =>
    if 2 ^ 32 ≤ data.length then .error (.base "struct.error")
    else .ok ⟨w, h,
      (lengthHeaderPixels data.length ++ bytesToPixels data ++
        fillerPixels noise (w * h - (2 + (data.length + 2) / 3))).take (w * h)⟩

/-- The extraction byte loops, lines 263-277: flatten pixel triples back to a
byte list, three bytes per pixel. -/
def pixelsToBytes : List Rgb → List Nat
  | [] => []
  | (r, g, b) :: rest => r :: g :: b :: pixelsToBytes rest

/-- `struct.unpack('>I', bytes(length_bytes[:4]))`, line 267: the big-endian
32-bit value read from the first four channel bytes of the first two pixels. -/
def headerValue : List Rgb → Nat
  | (r0, g0, b0) :: (r1, _, _) :: _ => r0 * 2 ^ 24 + g0 * 2 ^ 16 + b0 * 2 ^ 8 + r1
  | _ => 0

/-- Lines 270-280: `pixels_needed = (data_length + 2) // 3`, slice
`pixels[2:2 + pixels_needed]` (silently short if the image is small), flatten,
truncate to `data_length`. -/
def embeddedBytes (pixels : List Rgb) : List Nat :=
  (pixelsToBytes ((pixels.drop 2).take ((headerValue pixels + 2) / 3))).take
    (headerValue pixels)

/-- `_extract_data_from_image` (lines 243-289) on an in-memory pixel list:
with fewer than two pixels `struct.unpack` raises `struct.error`, which the
`except` clause at line 288 wraps; otherwise the embedded bytes are split into
the 16-byte salt and the remainder (lines 283-284).  No capacity consistency
check is performed. -/
def extractDataFromPixels (pixels : List Rgb) : Except PyExn (List Nat × List Nat) :=
  match pixels with
  | _ :: _ :: _ => .ok ((embeddedBytes pixels).take 16, (embeddedBytes pixels).drop 16)
  | _ => .error (.wrap "Failed to extract data from image: " (.base "struct.error"))

/-- `encrypt_image` (lines 54-115) on an in-memory image: the PNG serializer
`serialize`, PBKDF2 `kdf` and Fernet encryption `enc` are external
collaborators; `salt` is the fresh `os.urandom(16)` value.  The payload is
`salt + encrypted_data` (line 131).  Any exception is wrapped as
`Exception("Encryption failed: " + str(e))` (lines 114-115). -/
def encryptImagePixels (serialize : RawImage → List Nat)
    (kdf : String → List Nat → List Nat)
    (enc : List Nat → List Nat → List Nat)
    (noise : Nat → Rgb) (salt : List Nat) (img : RawImage) (password : String) :
    Except PyExn RawImage :=
  match createDecoyPixels noise (salt ++ enc (kdf password salt) (serialize img))
      img.width img.height with
  | .error e => .error (.wrap "Encryption failed: " e)
  | .ok decoy => .ok decoy

/-- `decrypt_image` (lines 196-241) on an in-memory container: extract the
embedded salt and ciphertext, re-derive the key with the same salt, decrypt
(`fernet.decrypt` raises `InvalidToken` on authentication failure, modelled by
`dec` returning `none`), reopen the plaintext as an image (`Image.open` raises
`UnidentifiedImageError` on failure, modelled by `deserialize` returning
`none`).  Any exception is wrapped as
`Exception("Decryption failed: " + str(e))` (lines 240-241). -/
def decryptImagePixels (kdf : String → List Nat → List Nat)
    (dec : List Nat → List Nat → Option (List Nat))
    (deserialize : List Nat → Option RawImage)
    (container : RawImage) (password : String) : Except PyExn RawImage :=
  match extractDataFromPixels container.pixels with
  | .error e => .error (.wrap "Decryption failed: " e)
  | .ok (salt, encryptedData) =>
    match dec (kdf password salt) encryptedData with
    | none => .error (.wrap "Decryption failed: " (.base "InvalidToken"))
    | some data =>
      match deserialize data with
      | none => .error (.wrap "Decryption failed: " (.base "UnidentifiedImageError"))
      | some img => .ok img

/-- The filler triples drawn from a stateful PRNG: `noiseStream step s i` is
the `i`-th triple produced after the PRNG state is `s` (`step` advances the
state and emits one triple, standing for three `random.randint(0, 255)`
draws, line 182). -/
def noiseStream (step : Nat → Nat × Rgb) : Nat → Nat → Rgb
  | s, 0 => (step s).2
  | s, n + 1 => noiseStream step (step s).1 n

/-- `_create_decoy_image_with_data` as actually called with the process PRNG:
line 180 executes `random.seed(42)`, discarding the incoming PRNG state
`prngState` and resetting the generator to the fixed state `seedOf 42` before
the filler pixels are drawn.  `step` and `seedOf` model the Mersenne-Twister
step and seeding functions of Python's `random` module. -/
def createDecoySeeded (step : Nat → Nat × Rgb) (seedOf : Nat → Nat) (prngState : Nat)
    (data : List Nat) (width height : Nat) : Except PyExn RawImage :=
  createDecoyPixels (noiseStream step (seedOf 42)) data width height

/-- Overwrite one channel byte of a pixel list: `pos` indexes the flattened
r,g,b byte stream (pixel `pos / 3`, channel `pos % 3`).  Used to express
tampering with a single byte of a container image. -/
def setFlatByte (pixels : List Rgb) (pos : Nat) (v : Nat) : List Rgb :=
  match pixels[pos / 3]? with
  | none => pixels
  | some (r, g, b) =>
    pixels.set (pos / 3)
      (if pos % 3 = 0 then (v, g, b) else if pos % 3 = 1 then (r, v, b) else (r, g, v))

/-- `is_encrypted_file` (lines 291-350) on a path plus the pixel content the
image codec recovers for it (`none` when the file is missing or cannot be
opened and converted to RGB): return `true` at once for a path ending in
`.enc` (lines 306-307); reject non-`.png` paths (lines 310-311); otherwise
require at least two pixels, a header value in `[16, 100 * 1024 * 1024]` and
enough pixels for that length (lines 320-339). -/
def isEncryptedFile (path : List Char) (content : Option (List Rgb)) : Bool :=
  if ['.', 'e', 'n', 'c'].isSuffixOf path then
    true
  else if !(['.', 'p', 'n', 'g'].isSuffixOf (path.map Char.toLower)) then
    false
  else
    match content with
    | none => false
    | some pixels =>
      if pixels.length < 2 then false
      else if 16 ≤ headerValue pixels ∧ headerValue pixels ≤ 100 * 1024 * 1024 then
        if 2 + (headerValue pixels + 2) / 3 ≤ pixels.length then true else false
      else false

/-- A noise stream that emits black pixels; used to instantiate the abstract
PRNG parameter in concrete evaluations. -/
def zeroNoise : Nat → Rgb := fun _ => (0, 0, 0)

/-! ### Concrete instantiations of the external collaborators

Toy serializers, key-derivation functions and ciphers used to evaluate the
pipeline theorems on explicit inputs.  They satisfy, at the specific points
where the concrete theorems use them, the contracts that PNG encoding, PBKDF2
and Fernet provide. -/

/-- A concrete one-pixel source image. -/
def img0 : RawImage := ⟨1, 1, [(5, 6, 7)]⟩

/-- A toy serializer: a fixed three-byte encoding of `img0`. -/
def ser0 : RawImage → List Nat := fun _ => [9, 8, 7]

/-- The inverse of `ser0` at `img0`. -/
def deser0 : List Nat → Option RawImage :=
  fun b => if b = [9, 8, 7] then some img0 else none

/-- A concrete 16-byte salt (`os.urandom(16)` outcome). -/
def salt0 : List Nat := List.replicate 16 0

/-- A toy key-derivation function keyed on the password length. -/
def kdfLen : String → List Nat → List Nat := fun p _ => [p.length]

/-- A toy key-derivation function returning the salt itself, so distinct salts
give distinct keys. -/
def kdfSalt : String → List Nat → List Nat := fun _ s => s

/-- A toy cipher encryption that passes the plaintext through. -/
def encId : List Nat → List Nat → List Nat := fun _ m => m

/-- A toy cipher decryption accepting any key and token. -/
def decSome : List Nat → List Nat → Option (List Nat) := fun _ t => some t

/-- A toy authenticated decryption accepting only the key `[1]`. -/
def decKey1 : List Nat → List Nat → Option (List Nat) :=
  fun k t => if k = [1] then some t else none

/-- A toy cipher producing the fixed one-byte token `[9]`. -/
def encTok : List Nat → List Nat → List Nat := fun _ _ => [9]

/-- A toy authenticated decryption accepting exactly the key `salt0` and the
token `[9]`, and recovering the plaintext `ser0 img0`. -/
def decTok : List Nat → List Nat → Option (List Nat) :=
  fun k t => if k = salt0 ∧ t = [9] then some [9, 8, 7] else none

/-- The container that `createDecoyPixels zeroNoise (List.range 17) 4 2`
produces: header pixels for length 17, six data pixels, no filler. -/
def container17 : RawImage :=
  ⟨4, 2, [(0, 0, 0), (17, 0, 0), (0, 1, 2), (3, 4, 5), (6, 7, 8), (9, 10, 11),
    (12, 13, 14), (15, 16, 0)]⟩

/-- The container that `createDecoyPixels zeroNoise [1, 2, 3] 1 1` produces
after canvas growth to 3 x 2. -/
def container3 : RawImage :=
  ⟨3, 2, [(0, 0, 0), (3, 0, 0), (1, 2, 3), (0, 0, 0), (0, 0, 0), (0, 0, 0)]⟩

/-! ### Properties of the growth loop -/

theorem growDimsFuel_ok_ge (fuel : Nat) :
    ∀ needed w h w2 h2, growDimsFuel fuel needed w h = .ok (w2, h2) → needed ≤ w2 * h2 := by
  induction fuel with
  | zero => intro needed w h w2 h2 hg; simp [growDimsFuel] at hg
  | succ f ih =>
    intro needed w h w2 h2 hg
    rw [growDimsFuel] at hg
    by_cases hlt : w * h < needed
    · rw [if_pos hlt] at hg
      by_cases hz : h = 0
      · rw [if_pos hz] at hg; cases hg
      · rw [if_neg hz] at hg
        exact ih needed _ _ w2 h2 hg
    · rw [if_neg hlt] at hg
      cases hg
      omega

theorem growDimsFuel_isOk (fuel : Nat) :
    ∀ needed w h, needed - w * h < fuel → 1 ≤ h →
      ∃ w2 h2, growDimsFuel fuel needed w h = .ok (w2, h2) := by
  induction fuel with
  | zero => intro needed w h hfuel _; omega
  | succ f ih =>
    intro needed w h hfuel hh
    by_cases hlt : w * h < needed
    · have hz : h ≠ 0 := by omega
      have hW : w + 1 ≤ max (w + 1) (roundHalf needed h) := le_max_left _ _
      have hH : h + 1 ≤
          max (h + 1) (roundHalf needed (max (w + 1) (roundHalf needed h))) := le_max_left _ _
      have hmul : (w + 1) * (h + 1) ≤ max (w + 1) (roundHalf needed h) *
          max (h + 1) (roundHalf needed (max (w + 1) (roundHalf needed h))) :=
        Nat.mul_le_mul hW hH
      have hexp : (w + 1) * (h + 1) = w * h + w + h + 1 := by ring
      have hprod : w * h < max (w + 1) (roundHalf needed h) *
          max (h + 1) (roundHalf needed (max (w + 1) (roundHalf needed h))) :=
        lt_of_lt_of_le (by omega) hmul
      have hfuel2 : needed - max (w + 1) (roundHalf needed h) *
          max (h + 1) (roundHalf needed (max (w + 1) (roundHalf needed h))) < f :=
        lt_of_lt_of_le (Nat.sub_lt_sub_left hlt hprod) (Nat.lt_succ_iff.mp hfuel)
      obtain ⟨w2, h2, hrec⟩ := ih needed _ _ hfuel2 (by omega)
      refine ⟨w2, h2, ?_⟩
      rw [growDimsFuel, if_pos hlt, if_neg hz]
      exact hrec
    · refine ⟨w, h, ?_⟩
      rw [growDimsFuel, if_neg hlt]

theorem growDims_ok_ge (needed w h w2 h2 : Nat)
    (hg : growDims needed w h = .ok (w2, h2)) : needed ≤ w2 * h2 :=
  growDimsFuel_ok_ge (needed + 1) needed w h w2 h2 hg

theorem growDims_isOk (needed w h : Nat) (hh : 1 ≤ h) :
    ∃ w2 h2, growDims needed w h = .ok (w2, h2) :=
  growDimsFuel_isOk (needed + 1) needed w h (Nat.lt_succ_iff.mpr (Nat.sub_le _ _)) hh

/-! ### Properties of byte packing and of the container layout -/

theorem bytesToPixels_length : (l : List Nat) → (bytesToPixels l).length = (l.length + 2) / 3
  | [] => by simp [bytesToPixels]
  | [_] => by simp [bytesToPixels]
  | [_, _] => by simp [bytesToPixels]
  | _ :: _ :: _ :: rest => by
    simp only [bytesToPixels, List.length_cons, bytesToPixels_length rest]
    omega

theorem pixelsToBytes_length : (l : List Rgb) → (pixelsToBytes l).length = 3 * l.length
  | [] => by simp [pixelsToBytes]
  | (_, _, _) :: rest => by
    simp only [pixelsToBytes, List.length_cons, pixelsToBytes_length rest]
    omega

theorem pixelsToBytes_bytesToPixels_take :
    (l : List Nat) → (pixelsToBytes (bytesToPixels l)).take l.length = l
  | [] => by simp [bytesToPixels, pixelsToBytes]
  | [_] => by simp [bytesToPixels, pixelsToBytes]
  | [_, _] => by simp [bytesToPixels, pixelsToBytes]
  | a :: b :: c :: rest => by
    simp only [bytesToPixels, pixelsToBytes, List.length_cons, List.take_succ_cons]
    rw [pixelsToBytes_bytesToPixels_take rest]

theorem createDecoyPixels_eq (noise : Nat → Rgb) (data : List Nat) (w h : Nat)
    (img : RawImage) (hlen : data.length < 2 ^ 32)
    (hc : createDecoyPixels noise data w h = .ok img) :
    2 + (data.length + 2) / 3 ≤ img.width * img.height ∧
    img.pixels = lengthHeaderPixels data.length ++ bytesToPixels data ++
      fillerPixels noise (img.width * img.height - (2 + (data.length + 2) / 3)) := by
  unfold createDecoyPixels at hc
  cases hg : growDims ((data.length + 2) / 3 + 2) w h with
  | error e => rw [hg] at hc; simp at hc
  | ok p =>
    obtain ⟨w2, h2⟩ := p
    rw [hg] at hc
    dsimp only at hc
    rw [if_neg (show ¬ 2 ^ 32 ≤ data.length by omega)] at hc
    have hcap : (data.length + 2) / 3 + 2 ≤ w2 * h2 := growDims_ok_ge _ w h w2 h2 hg
    have hlens : (lengthHeaderPixels data.length ++ bytesToPixels data ++
        fillerPixels noise (w2 * h2 - (2 + (data.length + 2) / 3))).length = w2 * h2 := by
      simp only [List.length_append, lengthHeaderPixels, List.length_cons,
        List.length_nil, bytesToPixels_length, fillerPixels, List.length_map,
        List.length_range]
      omega
    cases hc
    refine ⟨by simpa using by omega, ?_⟩
    simpa using List.take_of_length_le (le_of_eq hlens)

theorem createDecoyPixels_isOk (noise : Nat → Rgb) (data : List Nat) (w h : Nat)
    (hlen : data.length < 2 ^ 32) (hh : 1 ≤ h) :
    ∃ img, createDecoyPixels noise data w h = .ok img := by
  obtain ⟨w2, h2, hg⟩ := growDims_isOk ((data.length + 2) / 3 + 2) w h hh
  refine ⟨⟨w2, h2, (lengthHeaderPixels data.length ++ bytesToPixels data ++
    fillerPixels noise (w2 * h2 - (2 + (data.length + 2) / 3))).take (w2 * h2)⟩, ?_⟩
  unfold createDecoyPixels
  rw [hg]
  dsimp only
  rw [if_neg (show ¬ 2 ^ 32 ≤ data.length by omega)]

theorem headerValue_cons_cons (r0 g0 b0 r1 g1 b1 : Nat) (rest : List Rgb) :
    headerValue ((r0, g0, b0) :: (r1, g1, b1) :: rest) =
      r0 * 2 ^ 24 + g0 * 2 ^ 16 + b0 * 2 ^ 8 + r1 := rfl

theorem headerValue_header (L : Nat) (hL : L < 2 ^ 32) (tail : List Rgb) :
    headerValue ((L / 2 ^ 24 % 256, L / 2 ^ 16 % 256, L / 2 ^ 8 % 256) ::
      (L % 256, 0, 0) :: tail) = L := by
  rw [headerValue_cons_cons]
  omega

theorem extract_decoy (noise : Nat → Rgb) (data : List Nat) (w h : Nat)
    (img : RawImage) (hlen : data.length < 2 ^ 32)
    (hc : createDecoyPixels noise data w h = .ok img) :
    extractDataFromPixels img.pixels = .ok (data.take 16, data.drop 16) := by
  obtain ⟨hcap, hpix⟩ := createDecoyPixels_eq noise data w h img hlen hc
  have hform : img.pixels =
      (data.length / 2 ^ 24 % 256, data.length / 2 ^ 16 % 256, data.length / 2 ^ 8 % 256) ::
      (data.length % 256, 0, 0) ::
      (bytesToPixels data ++
        fillerPixels noise (img.width * img.height - (2 + (data.length + 2) / 3))) := by
    rw [hpix]; simp [lengthHeaderPixels]
  rw [hform]
  show Except.ok _ = _
  have hhv : headerValue
      ((data.length / 2 ^ 24 % 256, data.length / 2 ^ 16 % 256, data.length / 2 ^ 8 % 256) ::
        (data.length % 256, 0, 0) ::
        (bytesToPixels data ++
          fillerPixels noise (img.width * img.height - (2 + (data.length + 2) / 3)))) =
      data.length := headerValue_header data.length hlen _
  have hemb : embeddedBytes
      ((data.length / 2 ^ 24 % 256, data.length / 2 ^ 16 % 256, data.length / 2 ^ 8 % 256) ::
        (data.length % 256, 0, 0) ::
        (bytesToPixels data ++
          fillerPixels noise (img.width * img.height - (2 + (data.length + 2) / 3)))) =
      data := by
    unfold embeddedBytes
    rw [hhv]
    simp only [List.drop_succ_cons, List.drop_zero]
    rw [List.take_left' (bytesToPixels_length data)]
    exact pixelsToBytes_bytesToPixels_take data
  rw [hemb]

/-! ### Properties of single-byte tampering -/

theorem setFlatByte_cons (p : Rgb) (l : List Rgb) (n v : Nat) :
    setFlatByte (p :: l) (n + 3) v = p :: setFlatByte l n v := by
  unfold setFlatByte
  rw [show (n + 3) / 3 = n / 3 + 1 by omega, show (n + 3) % 3 = n % 3 by omega]
  rw [List.getElem?_cons_succ]
  cases hx : l[n / 3]? with
  | none => rfl
  | some q =>
    obtain ⟨r, g, b⟩ := q
    simp [List.set]

theorem setFlatByte_append_left (l1 l2 : List Rgb) (j v : Nat) (hj : j < 3 * l1.length) :
    setFlatByte (l1 ++ l2) j v = setFlatByte l1 j v ++ l2 := by
  have hj3 : j / 3 < l1.length := by omega
  unfold setFlatByte
  rw [List.getElem?_append_left hj3, List.getElem?_eq_getElem hj3]
  dsimp only
  obtain ⟨r, g, b⟩ := l1[j / 3]
  exact List.set_append_left _ _ hj3

theorem setFlatByte_length (l : List Rgb) (p v : Nat) :
    (setFlatByte l p v).length = l.length := by
  unfold setFlatByte
  cases hx : l[p / 3]? with
  | none => rfl
  | some q =>
    obtain ⟨r, g, b⟩ := q
    simp

theorem pixelsToBytes_setFlatByte :
    (l : List Rgb) → (j v : Nat) →
      pixelsToBytes (setFlatByte l j v) = (pixelsToBytes l).set j v
  | [], j, v => by simp [setFlatByte, pixelsToBytes]
  | (r, g, b) :: rest, 0, v => by simp [setFlatByte, pixelsToBytes, List.set]
  | (r, g, b) :: rest, 1, v => by simp [setFlatByte, pixelsToBytes, List.set]
  | (r, g, b) :: rest, 2, v => by simp [setFlatByte, pixelsToBytes, List.set]
  | (r, g, b) :: rest, (j + 3), v => by
    rw [setFlatByte_cons]
    simp only [pixelsToBytes]
    rw [pixelsToBytes_setFlatByte rest j v]
    rfl

theorem extract_cons_cons (p q : Rgb) (t : List Rgb) :
    extractDataFromPixels (p :: q :: t) =
      .ok ((embeddedBytes (p :: q :: t)).take 16, (embeddedBytes (p :: q :: t)).drop 16) := rfl

theorem extract_decoy_tampered (noise : Nat → Rgb) (data : List Nat) (w h : Nat)
    (img : RawImage) (j v : Nat) (hlen : data.length < 2 ^ 32) (hj : j < data.length)
    (hc : createDecoyPixels noise data w h = .ok img) :
    extractDataFromPixels (setFlatByte img.pixels (6 + j) v) =
      .ok ((data.set j v).take 16, (data.set j v).drop 16) := by
  obtain ⟨hcap, hpix⟩ := createDecoyPixels_eq noise data w h img hlen hc
  have hform : img.pixels =
      (data.length / 2 ^ 24 % 256, data.length / 2 ^ 16 % 256, data.length / 2 ^ 8 % 256) ::
      (data.length % 256, 0, 0) ::
      (bytesToPixels data ++
        fillerPixels noise (img.width * img.height - (2 + (data.length + 2) / 3))) := by
    rw [hpix]; simp [lengthHeaderPixels]
  rw [hform, show 6 + j = (j + 3) + 3 by omega, setFlatByte_cons, setFlatByte_cons]
  have hjb : j < 3 * (bytesToPixels data).length := by
    rw [bytesToPixels_length]; omega
  rw [setFlatByte_append_left _ _ j v hjb, extract_cons_cons]
  have hlen2 : (setFlatByte (bytesToPixels data) j v).length = (data.length + 2) / 3 := by
    rw [setFlatByte_length, bytesToPixels_length]
  have hemb : embeddedBytes
      ((data.length / 2 ^ 24 % 256, data.length / 2 ^ 16 % 256, data.length / 2 ^ 8 % 256) ::
        (data.length % 256, 0, 0) ::
        (setFlatByte (bytesToPixels data) j v ++
          fillerPixels noise (img.width * img.height - (2 + (data.length + 2) / 3)))) =
      data.set j v := by
    unfold embeddedBytes
    rw [headerValue_header data.length hlen]
    simp only [List.drop_succ_cons, List.drop_zero]
    rw [List.take_left' hlen2, pixelsToBytes_setFlatByte, List.set_take,
      pixelsToBytes_bytesToPixels_take]
  rw [hemb]

theorem set_ne_of_ne (l : List Nat) (n v : Nat) (h : n < l.length) (hv : l[n] ≠ v) :
    l.set n v ≠ l := by
  intro he
  have h1 : (l.set n v)[n]? = some v := List.getElem?_set_eq_of_lt v h
  rw [he, List.getElem?_eq_getElem h] at h1
  exact hv (Option.some.inj h1)

/-! ### The claims -/

/-- Claim C1: for every RGB `RawImage` and non-empty password, decoding the
container produced by encoding the image with that password, using the same
password, returns the image pixel-identical.  The external collaborators are
constrained exactly by their contracts: the serializer round-trips at the
image, and the cipher decrypts its own token under the derivation key. -/
theorem encode_decode_roundtrip
    (serialize : RawImage → List Nat) (kdf : String → List Nat → List Nat)
    (enc : List Nat → List Nat → List Nat) (dec : List Nat → List Nat → Option (List Nat))
    (deserialize : List Nat → Option RawImage) (noise : Nat → Rgb) (salt : List Nat)
    (img : RawImage) (password : String)
    (hpw : password ≠ "")
    (hsalt : salt.length = 16)
    (hh : 1 ≤ img.height)
    (hlen : (salt ++ enc (kdf password salt) (serialize img)).length < 2 ^ 32)
    (hdec : dec (kdf password salt) (enc (kdf password salt) (serialize img)) =
      some (serialize img))
    (hdeser : deserialize (serialize img) = some img) :
    (encryptImagePixels serialize kdf enc noise salt img password) >>= (fun c =>
      decryptImagePixels kdf dec deserialize c password) = .ok img := by
  obtain ⟨c, hc⟩ := createDecoyPixels_isOk noise
    (salt ++ enc (kdf password salt) (serialize img)) img.width img.height hlen hh
  have henc : encryptImagePixels serialize kdf enc noise salt img password = .ok c := by
    unfold encryptImagePixels
    rw [hc]
  rw [henc]
  show decryptImagePixels kdf dec deserialize c password = .ok img
  have hx := extract_decoy noise (salt ++ enc (kdf password salt) (serialize img))
    img.width img.height c hlen hc
  rw [List.take_left' hsalt, List.drop_left' hsalt] at hx
  unfold decryptImagePixels
  rw [hx]
  dsimp only
  rw [hdec]
  dsimp only
  rw [hdeser]

/-- Witness for C1 at a concrete instantiation: the one-pixel image `img0`,
password `"p"`, the 16-byte salt `salt0`, pass-through cipher and a serializer
that round-trips at `img0`. -/
theorem encode_decode_roundtrip_witness :
    ("p" : String) ≠ "" ∧ salt0.length = 16 ∧ 1 ≤ img0.height ∧
    (salt0 ++ encId (kdfLen "p" salt0) (ser0 img0)).length < 2 ^ 32 ∧
    decSome (kdfLen "p" salt0) (encId (kdfLen "p" salt0) (ser0 img0)) =
      some (ser0 img0) ∧
    deser0 (ser0 img0) = some img0 ∧
    (encryptImagePixels ser0 kdfLen encId zeroNoise salt0 img0 "p") >>= (fun c =>
      decryptImagePixels kdfLen decSome deser0 c "p") = .ok img0 := by
  refine ⟨by decide, by decide, by decide, by decide, rfl, rfl, ?_⟩
  exact encode_decode_roundtrip ser0 kdfLen encId decSome deser0 zeroNoise salt0 img0 "p"
    (by decide) (by decide) (by decide) (by decide) rfl rfl

/-- Claim C2: decoding a container with a different password fails with the
authenticated cipher's rejection (`InvalidToken`, surfaced wrapped in the
generic decryption exception), given the cipher contract that decryption
under any key other than the encryption key rejects the token, and that the
two passwords derive distinct keys. -/
theorem wrong_password_auth_failure
    (serialize : RawImage → List Nat) (kdf : String → List Nat → List Nat)
    (enc : List Nat → List Nat → List Nat) (dec : List Nat → List Nat → Option (List Nat))
    (deserialize : List Nat → Option RawImage) (noise : Nat → Rgb) (salt : List Nat)
    (img : RawImage) (p1 p2 : String)
    (hne : p1 ≠ p2) (hp1 : p1 ≠ "") (hp2 : p2 ≠ "")
    (hsalt : salt.length = 16)
    (hh : 1 ≤ img.height)
    (hlen : (salt ++ enc (kdf p1 salt) (serialize img)).length < 2 ^ 32)
    (hkdf : kdf p2 salt ≠ kdf p1 salt)
    (hdec : ∀ k, k ≠ kdf p1 salt → dec k (enc (kdf p1 salt) (serialize img)) = none) :
    (encryptImagePixels serialize kdf enc noise salt img p1) >>= (fun c =>
      decryptImagePixels kdf dec deserialize c p2) =
    .error (.wrap "Decryption failed: " (.base "InvalidToken")) := by
  obtain ⟨c, hc⟩ := createDecoyPixels_isOk noise
    (salt ++ enc (kdf p1 salt) (serialize img)) img.width img.height hlen hh
  have henc : encryptImagePixels serialize kdf enc noise salt img p1 = .ok c := by
    unfold encryptImagePixels
    rw [hc]
  rw [henc]
  show decryptImagePixels kdf dec deserialize c p2 = _
  have hx := extract_decoy noise (salt ++ enc (kdf p1 salt) (serialize img))
    img.width img.height c hlen hc
  rw [List.take_left' hsalt, List.drop_left' hsalt] at hx
  unfold decryptImagePixels
  rw [hx]
  dsimp only
  rw [hdec (kdf p2 salt) hkdf]

/-- Witness for C2: passwords `"a"` and `"bb"` derive the distinct keys `[1]`
and `[2]` under `kdfLen`, and `decKey1` rejects every key other than `[1]`. -/
theorem wrong_password_auth_failure_witness :
    ("a" : String) ≠ "bb" ∧ salt0.length = 16 ∧ 1 ≤ img0.height ∧
    kdfLen "bb" salt0 ≠ kdfLen "a" salt0 ∧
    (encryptImagePixels ser0 kdfLen encId zeroNoise salt0 img0 "a") >>= (fun c =>
      decryptImagePixels kdfLen decKey1 deser0 c "bb") =
    .error (.wrap "Decryption failed: " (.base "InvalidToken")) := by
  refine ⟨by decide, by decide, by decide, by decide, ?_⟩
  refine wrong_password_auth_failure ser0 kdfLen encId decKey1 deser0 zeroNoise salt0
    img0 "a" "bb" (by decide) (by decide) (by decide) (by decide) (by decide) (by decide)
    (by decide) ?_
  intro k hk
  have h1 : kdfLen "a" salt0 = [1] := rfl
  rw [h1] at hk
  simp [decKey1, hk]

/-- Claim C3: byte packing followed by unpacking returns exactly the original
payload whenever the requested canvas already has the capacity the header
demands; the zero padding of the final partial pixel is cut off by the
length-header truncation (`data_bytes[:data_length]`), so all residues of the
payload length modulo 3 round-trip. -/
theorem pack_unpack_payload_exact
    (noise : Nat → Rgb) (payload : List Nat) (w h : Nat) (img : RawImage)
    (hlen : payload.length < 2 ^ 32)
    (hcap : 2 + (payload.length + 2) / 3 ≤ w * h)
    (hc : createDecoyPixels noise payload w h = .ok img) :
    extractDataFromPixels img.pixels = .ok (payload.take 16, payload.drop 16) ∧
    payload.take 16 ++ payload.drop 16 = payload :=
  ⟨extract_decoy noise payload w h img hlen hc, List.take_append_drop 16 payload⟩

/-- Witness for C3 at the 17-byte payload `List.range 17` (length 17, with
`17 % 3 = 2`, exercising the zero-padded final pixel) on a 4 x 2 canvas. -/
theorem pack_unpack_payload_exact_witness :
    (List.range 17).length < 2 ^ 32 ∧
    2 + ((List.range 17).length + 2) / 3 ≤ 4 * 2 ∧
    createDecoyPixels zeroNoise (List.range 17) 4 2 = .ok container17 ∧
    (extractDataFromPixels container17.pixels =
        .ok ((List.range 17).take 16, (List.range 17).drop 16) ∧
      (List.range 17).take 16 ++ (List.range 17).drop 16 = List.range 17) := by
  refine ⟨by decide, by decide, rfl, ?_⟩
  exact pack_unpack_payload_exact zeroNoise (List.range 17) 4 2 container17
    (by decide) (by decide) rfl

/-- Claim C5 (the code defect the spec's section 9 describes): because
`_create_decoy_image_with_data` executes `random.seed(42)` before drawing
filler pixels, the decoy image is a function of the fixed seed alone — the
PRNG state the process had when `encode` was called (the only thing that
differs between two calls at different times) has no influence, so two
encodes of the same data produce bit-identical filler noise.  This refutes
the claimed noise non-determinism. -/
theorem decoy_noise_fixed_seed_deterministic
    (step : Nat → Nat × Rgb) (seedOf : Nat → Nat) (s1 s2 : Nat)
    (data : List Nat) (w h : Nat) :
    createDecoySeeded step seedOf s1 data w h =
    createDecoySeeded step seedOf s2 data w h := rfl

/-- Counterexample to C4 as stated: a 2-pixel image whose header decodes to 17
(so `2 + ceil(17/3) = 8 > 2` pixels would be required) does NOT make the
unpack operation fail — `_extract_data_from_image` silently returns the empty
payload, because the slice `pixels[2:2+pixels_needed]` and the truncation
`data_bytes[:data_length]` simply come up short without any consistency
check. -/
theorem unpack_inconsistent_header_cex :
    extractDataFromPixels [(0, 0, 0), (17, 0, 0)] = .ok ([], []) ∧
    ([(0, 0, 0), (17, 0, 0)] : List Rgb).length <
      2 + (headerValue [(0, 0, 0), (17, 0, 0)] + 2) / 3 := by
  exact ⟨rfl, by decide⟩

/-- Claim C4 (amended): the unpack operation performs no consistency check of
the header against the pixel count.  On any image with at least two pixels
whose decoded length exceeds the capacity of the image, it succeeds and
returns a payload truncated to the bytes actually present
(`min data_length (3 * (total_pixels - 2))` of them) instead of failing;
it fails only when fewer than two pixels exist. -/
theorem unpack_inconsistent_header_truncates
    (pixels : List Rgb)
    (h2 : 2 ≤ pixels.length)
    (hbad : pixels.length < 2 + (headerValue pixels + 2) / 3) :
    ∃ s d, extractDataFromPixels pixels = .ok (s, d) ∧
      (s ++ d).length = min (headerValue pixels) (3 * (pixels.length - 2)) := by
  match pixels, h2 with
  | p0 :: p1 :: rest, _ =>
    refine ⟨_, _, extract_cons_cons p0 p1 rest, ?_⟩
    rw [List.take_append_drop]
    unfold embeddedBytes
    have hdrop : (p0 :: p1 :: rest).drop 2 = rest := rfl
    rw [hdrop]
    have hshort : rest.length ≤ (headerValue (p0 :: p1 :: rest) + 2) / 3 := by
      simp only [List.length_cons] at hbad
      omega
    rw [List.take_of_length_le hshort]
    rw [List.length_take, pixelsToBytes_length]
    simp only [List.length_cons]
    omega

/-- Witness for C4 (amended) at the concrete 2-pixel image with header 17:
the returned payload has `min 17 (3 * 0) = 0` bytes. -/
theorem unpack_inconsistent_header_truncates_witness :
    2 ≤ ([(0, 0, 0), (17, 0, 0)] : List Rgb).length ∧
    ([(0, 0, 0), (17, 0, 0)] : List Rgb).length <
      2 + (headerValue [(0, 0, 0), (17, 0, 0)] + 2) / 3 ∧
    ∃ s d, extractDataFromPixels [(0, 0, 0), (17, 0, 0)] = .ok (s, d) ∧
      (s ++ d).length = min (headerValue [(0, 0, 0), (17, 0, 0)])
        (3 * (([(0, 0, 0), (17, 0, 0)] : List Rgb).length - 2)) := by
  refine ⟨by decide, by decide, ?_⟩
  exact unpack_inconsistent_header_truncates [(0, 0, 0), (17, 0, 0)] (by decide) (by decide)

/-- Counterexample to C6 as stated: packing a 3-byte payload into a requested
1 x 1 canvas needs `2 + ceil(3/3) = 3` pixels; the growth loop returns a
3 x 2 canvas (6 pixels), although 3 x 1 (3 pixels) already satisfies the
capacity inequality — the canvas is NOT grown to the smallest satisfying
dimensions (nor does 3 x 2 keep the 1:1 aspect ratio as well as 2 x 2, which
also suffices). -/
theorem pack_growth_not_minimal_cex :
    (createDecoyPixels zeroNoise [1, 2, 3] 1 1).map (fun i => (i.width, i.height)) =
      .ok (3, 2) ∧
    2 + (([1, 2, 3] : List Nat).length + 2) / 3 ≤ 3 * 1 ∧ 3 * 1 < 3 * 2 := by
  exact ⟨rfl, by decide, by decide⟩

/-- Claim C6 (amended): `pack` always produces a canvas with
`width * height >= 2 + ceil(len/3)` — when the requested dimensions are too
small the loop bumps width and height until the capacity inequality holds —
but the resulting dimensions are not necessarily the smallest satisfying
pair. -/
theorem pack_capacity_lower_bound
    (noise : Nat → Rgb) (payload : List Nat) (w h : Nat) (img : RawImage)
    (hc : createDecoyPixels noise payload w h = .ok img) :
    2 + (payload.length + 2) / 3 ≤ img.width * img.height := by
  unfold createDecoyPixels at hc
  cases hg : growDims ((payload.length + 2) / 3 + 2) w h with
  | error e => rw [hg] at hc; simp at hc
  | ok p =>
    obtain ⟨w2, h2⟩ := p
    rw [hg] at hc
    dsimp only at hc
    by_cases hbig : 2 ^ 32 ≤ payload.length
    · rw [if_pos hbig] at hc; simp at hc
    · rw [if_neg hbig] at hc
      cases hc
      have hge := growDims_ok_ge _ w h w2 h2 hg
      simpa using by omega

/-- Witness for C6 (amended) at the 3-byte payload on a requested 1 x 1
canvas, which the loop grows to the concrete container `container3`. -/
theorem pack_capacity_lower_bound_witness :
    createDecoyPixels zeroNoise [1, 2, 3] 1 1 = .ok container3 ∧
    2 + (([1, 2, 3] : List Nat).length + 2) / 3 ≤ container3.width * container3.height := by
  exact ⟨rfl, pack_capacity_lower_bound zeroNoise [1, 2, 3] 1 1 container3 rfl⟩

/-- Counterexample to C7 as stated: packing any payload with requested height
0 makes the growth computation evaluate `needed_pixels / new_height` with
`new_height = 0`, raising `ZeroDivisionError` — there is no 1:1 fallback
policy in the code. -/
theorem pack_zero_height_division_cex :
    createDecoyPixels zeroNoise [] 1 0 = .error (.base "ZeroDivisionError") := rfl

/-- Claim C7 (amended): for degenerate requested width (`min_width = 0`) the
pack operation still completes, because the loop immediately raises the width
to at least 1 before it is used as a divisor; but for degenerate height
(`min_height = 0`) the first loop iteration divides by zero and pack fails
with `ZeroDivisionError` instead of applying any 1:1 growth policy. -/
theorem pack_degenerate_dims :
    (∀ (noise : Nat → Rgb) (payload : List Nat) (h : Nat),
        payload.length < 2 ^ 32 → 1 ≤ h →
        (createDecoyPixels noise payload 0 h).isOk = true) ∧
    (∀ (noise : Nat → Rgb) (payload : List Nat) (w : Nat),
        createDecoyPixels noise payload w 0 = .error (.base "ZeroDivisionError")) := by
  constructor
  · intro noise payload h hlen hh
    obtain ⟨img, hc⟩ := createDecoyPixels_isOk noise payload 0 h hlen hh
    rw [hc]
    rfl
  · intro noise payload w
    unfold createDecoyPixels
    have hg : growDims ((payload.length + 2) / 3 + 2) w 0 =
        .error (.base "ZeroDivisionError") := by
      unfold growDims
      rw [growDimsFuel]
      rw [if_pos (show w * 0 < (payload.length + 2) / 3 + 2 by omega), if_pos rfl]
    rw [hg]

/-- Witness for C7 (amended), first part, at payload `[5]` with requested
dimensions 0 x 1: pack completes (growing the canvas to 3 x 2). -/
theorem pack_degenerate_dims_witness :
    ([5] : List Nat).length < 2 ^ 32 ∧ 1 ≤ 1 ∧
    (createDecoyPixels zeroNoise [5] 0 1).isOk = true := by
  exact ⟨by decide, by decide, pack_degenerate_dims.1 zeroNoise [5] 1 (by decide) (by decide)⟩

/-- Counterexample to C8 as stated: a concrete container whose payload length
is 17 (16-byte salt plus a one-byte token), so the final data pixel (pixel 7
of the 8 x 2 container, one of "the pixels holding salt and ciphertext")
carries a zero-padding byte in its blue channel, at flattened byte position
6 + 17 = 23.  Flipping the low bit of that byte (0 to 1) leaves decoding
completely successful: extraction truncates at the header length, so the
tampered container decodes to the original image instead of raising
anything. -/
theorem tamper_padding_byte_cex :
    (encryptImagePixels ser0 kdfSalt encTok zeroNoise salt0 img0 "p") >>= (fun c =>
      decryptImagePixels kdfSalt decTok deser0
        ⟨c.width, c.height, setFlatByte c.pixels 23 1⟩ "p") = .ok img0 := rfl

/-- Claim C8 (amended): flipping any single bit of a byte of the payload
proper — a byte at index `j < len(salt ++ token)`, excluding the zero-padding
byte of the final partial pixel — makes decoding fail with the cipher's
`InvalidToken` rejection, given the authenticated-cipher contract (any other
key, or any other token, is rejected) and key-derivation collision-freeness
at this salt; a flip confined to the padding byte is invisible to extraction
and decode returns the original image (see the counterexample). -/
theorem tamper_payload_byte_detected
    (serialize : RawImage → List Nat) (kdf : String → List Nat → List Nat)
    (enc : List Nat → List Nat → List Nat) (dec : List Nat → List Nat → Option (List Nat))
    (deserialize : List Nat → Option RawImage) (noise : Nat → Rgb) (salt : List Nat)
    (img : RawImage) (password : String) (j v : Nat)
    (hsalt : salt.length = 16)
    (hh : 1 ≤ img.height)
    (hlen : (salt ++ enc (kdf password salt) (serialize img)).length < 2 ^ 32)
    (hj : j < (salt ++ enc (kdf password salt) (serialize img)).length)
    (hv : (salt ++ enc (kdf password salt) (serialize img)).getD j 0 ≠ v)
    (hkdf : ∀ s, s ≠ salt → kdf password s ≠ kdf password salt)
    (hdec1 : ∀ k, k ≠ kdf password salt →
      dec k (enc (kdf password salt) (serialize img)) = none)
    (hdec2 : ∀ t, t ≠ enc (kdf password salt) (serialize img) →
      dec (kdf password salt) t = none) :
    (encryptImagePixels serialize kdf enc noise salt img password) >>= (fun c =>
      decryptImagePixels kdf dec deserialize
        ⟨c.width, c.height, setFlatByte c.pixels (6 + j) v⟩ password) =
    .error (.wrap "Decryption failed: " (.base "InvalidToken")) := by
  obtain ⟨c, hc⟩ := createDecoyPixels_isOk noise
    (salt ++ enc (kdf password salt) (serialize img)) img.width img.height hlen hh
  have henc : encryptImagePixels serialize kdf enc noise salt img password = .ok c := by
    unfold encryptImagePixels
    rw [hc]
  rw [henc]
  show decryptImagePixels kdf dec deserialize
    ⟨c.width, c.height, setFlatByte c.pixels (6 + j) v⟩ password = _
  have hx := extract_decoy_tampered noise
    (salt ++ enc (kdf password salt) (serialize img)) img.width img.height c j v hlen hj hc
  unfold decryptImagePixels
  dsimp only
  rw [hx]
  dsimp only
  by_cases hj16 : j < 16
  · have hjl : j < salt.length := by omega
    have hsalt2 : (((salt ++ enc (kdf password salt) (serialize img)).set j v).take 16) =
        salt.set j v := by
      rw [List.set_take, List.take_left' hsalt]
    have htok2 : (((salt ++ enc (kdf password salt) (serialize img)).set j v).drop 16) =
        enc (kdf password salt) (serialize img) := by
      rw [List.drop_set_of_lt _ _ hj16, List.drop_left' hsalt]
    have hgetj : (salt ++ enc (kdf password salt) (serialize img)).getD j 0 = salt[j] := by
      rw [List.getD_eq_getElem?_getD, List.getElem?_append_left hjl,
        List.getElem?_eq_getElem hjl]
      rfl
    have hsne : salt.set j v ≠ salt :=
      set_ne_of_ne salt j v hjl (by rw [← hgetj]; exact hv)
    rw [hsalt2, htok2, hdec1 (kdf password (salt.set j v)) (hkdf (salt.set j v) hsne)]
  · have hj16' : 16 ≤ j := by omega
    have hjt : j - 16 < (enc (kdf password salt) (serialize img)).length := by
      rw [List.length_append, hsalt] at hj
      omega
    have hsalt2 : (((salt ++ enc (kdf password salt) (serialize img)).set j v).take 16) =
        salt := by
      rw [List.set_take, List.take_left' hsalt]
      exact List.set_eq_of_length_le (by omega)
    have htok2 : (((salt ++ enc (kdf password salt) (serialize img)).set j v).drop 16) =
        (enc (kdf password salt) (serialize img)).set (j - 16) v := by
      rw [List.drop_set, if_neg (by omega), List.drop_left' hsalt]
    have hgetj : (salt ++ enc (kdf password salt) (serialize img)).getD j 0 =
        (enc (kdf password salt) (serialize img))[j - 16] := by
      rw [List.getD_eq_getElem?_getD,
        List.getElem?_append_right (show salt.length ≤ j by omega), hsalt,
        List.getElem?_eq_getElem hjt]
      rfl
    have htne : (enc (kdf password salt) (serialize img)).set (j - 16) v ≠
        enc (kdf password salt) (serialize img) :=
      set_ne_of_ne _ (j - 16) v hjt (by rw [← hgetj]; exact hv)
    rw [hsalt2, htok2, hdec2 _ htne]

/-- Witness for C8 (amended): flipping salt byte 0 (flattened container byte
6) from 0 to 1 in the concrete container of `img0` makes decoding fail with
the wrapped `InvalidToken`. -/
theorem tamper_payload_byte_detected_witness :
    salt0.length = 16 ∧ 1 ≤ img0.height ∧
    (0 : Nat) < (salt0 ++ encTok (kdfSalt "p" salt0) (ser0 img0)).length ∧
    (salt0 ++ encTok (kdfSalt "p" salt0) (ser0 img0)).getD 0 0 ≠ 1 ∧
    (encryptImagePixels ser0 kdfSalt encTok zeroNoise salt0 img0 "p") >>= (fun c =>
      decryptImagePixels kdfSalt decTok deser0
        ⟨c.width, c.height, setFlatByte c.pixels (6 + 0) 1⟩ "p") =
    .error (.wrap "Decryption failed: " (.base "InvalidToken")) := by
  refine ⟨by decide, by decide, by decide, by decide, ?_⟩
  refine tamper_payload_byte_detected ser0 kdfSalt encTok decTok deser0 zeroNoise salt0
    img0 "p" 0 1 (by decide) (by decide) (by decide) (by decide) (by decide) ?_ ?_ ?_
  · intro s hs
    simpa [kdfSalt] using hs
  · intro k hk
    simp only [kdfSalt] at hk
    simp [decTok, encTok, hk]
  · intro t ht
    simp only [encTok] at ht
    simp [decTok, kdfSalt, ht]

/-- Counterexample to C9 as stated: the detector accepts any path ending in
`.enc` with no content-based condition at all — here the underlying image has
a single pixel, its header value 0 is far below 16, and the capacity
condition fails, yet `is_encrypted_file` returns `true` (lines 306-307 of the
source, the legacy filename check the spec explicitly excludes). -/
theorem detector_legacy_suffix_cex :
    isEncryptedFile ['x', '.', 'e', 'n', 'c'] (some [(0, 0, 0)]) = true ∧
    ¬ 16 ≤ headerValue [(0, 0, 0)] ∧
    ([(0, 0, 0)] : List Rgb).length < 2 + (headerValue [(0, 0, 0)] + 2) / 3 := by
  decide

/-- Claim C9 (amended): the detector returns `true` only if either the path
carries the legacy `.enc` suffix (a content-free filename check), or the
decoded header length lies in `[16, 100 * 1024 * 1024]` and the image has at
least `2 + ceil(length/3)` pixels. -/
theorem detector_accept_conditions (path : List Char) (content : Option (List Rgb))
    (hacc : isEncryptedFile path content = true) :
    ['.', 'e', 'n', 'c'].isSuffixOf path = true ∨
    ∃ pixels, content = some pixels ∧ 16 ≤ headerValue pixels ∧
      headerValue pixels ≤ 100 * 1024 * 1024 ∧
      2 + (headerValue pixels + 2) / 3 ≤ pixels.length := by
  unfold isEncryptedFile at hacc
  split at hacc
  next h1 => exact Or.inl h1
  next h1 =>
    split at hacc
    next h2 => simp at hacc
    next h2 =>
      cases content with
      | none => simp at hacc
      | some pixels =>
        dsimp only at hacc
        split at hacc
        next h3 => simp at hacc
        next h3 =>
          split at hacc
          next h4 =>
            split at hacc
            next h5 => exact Or.inr ⟨pixels, rfl, h4.1, h4.2, h5⟩
            next h5 => simp at hacc
          next h4 => simp at hacc

/-- Witness for C9 (amended) at the `.enc`-suffixed path: the theorem applies
and yields the left disjunct (the legacy suffix), since the pixel conditions
all fail. -/
theorem detector_accept_conditions_witness :
    isEncryptedFile ['x', '.', 'e', 'n', 'c'] (some [(0, 0, 0)]) = true ∧
    (['.', 'e', 'n', 'c'].isSuffixOf ['x', '.', 'e', 'n', 'c'] = true ∨
      ∃ pixels, (some [(0, 0, 0)] : Option (List Rgb)) = some pixels ∧
        16 ≤ headerValue pixels ∧ headerValue pixels ≤ 100 * 1024 * 1024 ∧
        2 + (headerValue pixels + 2) / 3 ≤ pixels.length) := by
  exact ⟨by decide, detector_accept_conditions ['x', '.', 'e', 'n', 'c']
    (some [(0, 0, 0)]) (by decide)⟩

/-- Claim C10 (implicit): every failure of the public encrypt operation is a
single generic exception whose message starts with "Encryption failed: ", and
every failure of the public decrypt operation one starting with
"Decryption failed: " — the `except Exception` handlers at lines 114-115 and
240-241 re-wrap whatever error class arose inside, so the spec's error
taxonomy is not distinguishable by exception type at the public interface. -/
theorem public_error_wrapping
    (serialize : RawImage → List Nat) (kdf : String → List Nat → List Nat)
    (enc : List Nat → List Nat → List Nat) (dec : List Nat → List Nat → Option (List Nat))
    (deserialize : List Nat → Option RawImage) (noise : Nat → Rgb) (salt : List Nat)
    (img container : RawImage) (password : String) (e1 e2 : PyExn) :
    (encryptImagePixels serialize kdf enc noise salt img password = .error e1 →
      ∃ e0, e1 = .wrap "Encryption failed: " e0) ∧
    (decryptImagePixels kdf dec deserialize container password = .error e2 →
      ∃ e0, e2 = .wrap "Decryption failed: " e0) := by
  constructor
  · intro hfail
    unfold encryptImagePixels at hfail
    cases hc : createDecoyPixels noise (salt ++ enc (kdf password salt) (serialize img))
        img.width img.height with
    | error e =>
      rw [hc] at hfail
      dsimp only at hfail
      injection hfail with hfail
      exact ⟨e, hfail.symm⟩
    | ok d =>
      rw [hc] at hfail
      simp at hfail
  · intro hfail
    unfold decryptImagePixels at hfail
    cases hx : extractDataFromPixels container.pixels with
    | error e =>
      rw [hx] at hfail
      dsimp only at hfail
      injection hfail with hfail
      exact ⟨e, hfail.symm⟩
    | ok sd =>
      obtain ⟨s, d⟩ := sd
      rw [hx] at hfail
      dsimp only at hfail
      cases hd : dec (kdf password s) d with
      | none =>
        rw [hd] at hfail
        dsimp only at hfail
        injection hfail with hfail
        exact ⟨.base "InvalidToken", hfail.symm⟩
      | some b =>
        rw [hd] at hfail
        dsimp only at hfail
        cases hds : deserialize b with
        | none =>
          rw [hds] at hfail
          dsimp only at hfail
          injection hfail with hfail
          exact ⟨.base "UnidentifiedImageError", hfail.symm⟩
        | some i =>
          rw [hds] at hfail
          simp at hfail

/-- Witness for C10: a concrete failing encrypt (the degenerate 1 x 0 image,
whose growth computation divides by zero) surfaces as the wrapped generic
"Encryption failed: " exception, and the theorem recovers the wrapping. -/
theorem public_error_wrapping_witness :
    encryptImagePixels ser0 kdfLen encId zeroNoise salt0 ⟨1, 0, []⟩ "p" =
      .error (.wrap "Encryption failed: " (.base "ZeroDivisionError")) ∧
    ∃ e0, (PyExn.wrap "Encryption failed: " (.base "ZeroDivisionError")) =
      .wrap "Encryption failed: " e0 := by
  refine ⟨rfl, ?_⟩
  exact (public_error_wrapping ser0 kdfLen encId decSome deser0 zeroNoise salt0
    ⟨1, 0, []⟩ ⟨1, 0, []⟩ "p" (.wrap "Encryption failed: " (.base "ZeroDivisionError"))
    (.wrap "Decryption failed: " (.base "InvalidToken"))).1 rfl
